import Mathlib

/-!
Verification of the ResumeAlign backend (src/backend/app.py) against its
natural-language specification.

Python text values are modelled as `List Char` (`Str`); Python slicing
`s[:n]` is `List.take n`, `len` is `List.length`.  Every external
collaborator (the HTTP client, the Playwright renderer, the Bedrock LLM,
`json.loads`, the Mongo store) is modelled as an explicit environment
record: an `Except` value stands for "the call returned normally /
raised an exception".  A Python function that catches all exceptions is
translated as a total Lean function; instrumentation fields
(`pwAttempts`, event traces) record which external calls were made, in
order, so that "X is invoked exactly once before Y" claims can be
stated.
-/

namespace ResumeAlign

/-- Python strings are modelled as lists of characters. -/
abbrev Str := List Char

/-- Embed a Lean string literal into the model type. -/
def lit (s : String) : Str := s.data

/-! ### LLM cleanser: `cleanse_job_posting_with_llm` (app.py lines 90-165)

The environment records whether `boto3.client(...)` succeeded
(`credsOk`) and the outcome of `bedrock.invoke_model` on a given prompt
(`invoke`): `.ok reply` is the text extracted from the model response,
`.error e` is `str(e)` of a raised exception. -/

structure CleanseEnv where
  credsOk : Bool
  invoke : Str → Except Str Str

/-- Literal prompt text preceding the interpolated `raw_text[:8000]`
(app.py lines 108-129). -/
def cleansePromptP1 : Str := lit "Extract only the relevant job posting information from the following webpage content. \n    Remove all boilerplate text such as:\n    - Company policies about equal opportunity employment\n    - Disability/accessibility statements\n    - Cookie policies\n    - Navigation menus\n    - Footer information\n    - Legal disclaimers\n    - Generic company marketing text\n    \n    Keep only:\n    - Job title\n    - Job description\n    - Required qualifications and skills\n    - Responsibilities\n    - Nice-to-have skills\n    - Salary/benefits information (if present)\n    - Location\n    - Job type (full-time, contract, etc.)\n    \n    Raw webpage content:\n    "

/-- Literal prompt text following the interpolated `raw_text[:8000]`
(app.py lines 129-131). -/
def cleansePromptP2 : Str := lit "\n    \n    Return only the cleaned job posting content, nothing else."

/-- The f-string prompt of app.py lines 108-131: the only part of the
input that is sent to the LLM is `raw_text[:8000]`. -/
def cleansePrompt (raw : Str) : Str := cleansePromptP1 ++ raw.take 8000 ++ cleansePromptP2

/-- app.py lines 90-165.  The first `try` returns `raw_text[:5000]` when
client construction fails; the second `try` returns the model reply and
its `except` returns `raw_text[:5000]`.  All exceptions are caught, so
the function is total. -/
def cleanse_job_posting_with_llm (env : CleanseEnv) (raw : Str) : Str :=
  if env.credsOk then
    match env.invoke (cleansePrompt raw) with
    | Except.ok reply => reply
    | Except.error _ => raw.take 5000
  else
    raw.take 5000

/-! ### Content extraction pipeline: `scrape_job_posting` (app.py lines 167-235)

`staticFetch` is the outcome of the httpx GET plus BeautifulSoup
normalisation of lines 185-200: `.ok text` is the whitespace-joined
visible text, `.error e` is `str(e)` of any exception raised in that
block.  `pw k` is the outcome of the k-th call to
`scrape_with_playwright` (0-indexed in order of invocation).  The result
carries the returned pair plus instrumentation: how many Playwright
attempts were made, and whether an error-message pair was returned. -/

structure ScrapeEnv where
  staticFetch : Except Str Str
  pw : Nat → Except Str Str
  cleanseEnv : CleanseEnv

structure ScrapeResult where
  cleansed : Str
  raw : Str
  pwAttempts : Nat
  failed : Bool

/-- app.py line 219. -/
def noContentMsg : Str := lit "Unable to extract job posting content. The page might be protected or require manual access."

/-- app.py line 234: `f"Unable to scrape job posting. Error: \x7bstr(e)\x7d"`. -/
def scrapeErrorMsg (e : Str) : Str := lit "Unable to scrape job posting. Error: " ++ e

/-- app.py lines 167-235.  Branch structure: if the static fetch
normalises to more than 500 characters the text is cleansed and
returned; otherwise Playwright is tried inside the same `try` block
(line 211).  Any exception in that block - from the fetch itself or
from the line-211 Playwright call - lands in the `except` of line 222,
which tries Playwright once more (line 226) and finally returns the
error-message pair built from the outer exception `e`. -/
def scrape_job_posting (env : ScrapeEnv) : ScrapeResult :=
  match env.staticFetch with
  | Except.ok text =>
    if 500 < text.length then
      ⟨cleanse_job_posting_with_llm env.cleanseEnv text, text, 0, false⟩
    else
      match env.pw 0 with
      | Except.ok t2 =>
        if 100 < t2.length then
          ⟨cleanse_job_posting_with_llm env.cleanseEnv t2, t2, 1, false⟩
        else
          ⟨noContentMsg, noContentMsg, 1, true⟩
      | Except.error e =>
        match env.pw 1 with
        | Except.ok t3 =>
          if 100 < t3.length then
            ⟨cleanse_job_posting_with_llm env.cleanseEnv t3, t3, 2, false⟩
          else
            ⟨scrapeErrorMsg e, scrapeErrorMsg e, 2, true⟩
        | Except.error _ =>
          ⟨scrapeErrorMsg e, scrapeErrorMsg e, 2, true⟩
  | Except.error e =>
    match env.pw 0 with
    | Except.ok t3 =>
      if 100 < t3.length then
        ⟨cleanse_job_posting_with_llm env.cleanseEnv t3, t3, 1, false⟩
      else
        ⟨scrapeErrorMsg e, scrapeErrorMsg e, 1, true⟩
    | Except.error _ =>
      ⟨scrapeErrorMsg e, scrapeErrorMsg e, 1, true⟩

/-- The hypothesis of claim C1: the static fetch yields at most 500
characters of normalized text, or raises. -/
def staticShortOrErr (env : ScrapeEnv) : Prop :=
  (∃ t, env.staticFetch = Except.ok t ∧ t.length ≤ 500) ∨
  (∃ e, env.staticFetch = Except.error e)

/-- Claim C1 exactly as stated: whenever the static fetch is short or
raises, a failure result is preceded by exactly one Playwright attempt. -/
def C1Statement : Prop :=
  ∀ env : ScrapeEnv, staticShortOrErr env →
    (scrape_job_posting env).failed = true →
    (scrape_job_posting env).pwAttempts = 1

/-- Environment refuting C1: the static fetch succeeds with empty text
(0 ≤ 500 characters) and both Playwright attempts raise. -/
def scrapeEnvCX : ScrapeEnv :=
  ⟨Except.ok [], fun _ => Except.error (lit "Timeout"), ⟨false, fun _ => Except.error []⟩⟩

/-- Environment for the C1 witness: the static fetch raises and the
single Playwright attempt raises too. -/
def scrapeEnvW : ScrapeEnv :=
  ⟨Except.error (lit "ConnectError"), fun _ => Except.error (lit "Timeout"), ⟨false, fun _ => Except.error []⟩⟩

/-- Environment for the C7 witness: the static fetch yields 501
characters. -/
def scrapeEnvW7 : ScrapeEnv :=
  ⟨Except.ok (List.replicate 501 'a'), fun _ => Except.error (lit "Timeout"), ⟨false, fun _ => Except.error []⟩⟩

/-- Environment for the C8 witness: no AWS credentials. -/
def cleanseEnvW : CleanseEnv := ⟨false, fun _ => Except.error []⟩

/-! ### JSON extraction from the LLM reply (app.py lines 327-334)

`re.search` of the pattern "opening brace, any characters, closing
brace" returns the leftmost-starting match with a greedy middle: the
span from the first opening brace of the string to the last closing
brace of the string, provided that closing brace lies strictly after
the opening one.  (No earlier start is possible because a match must
begin with an opening brace, and no longer span is possible because the
greedy middle absorbs everything up to the last closing brace.) -/

/-- Index of the first occurrence of `c`, if any. -/
def firstIdxOf (c : Char) : Str → Option Nat
  | [] => none
  | a :: rest => if a = c then some 0 else (firstIdxOf c rest).map (· + 1)

/-- Index of the last occurrence of `c`, if any. -/
def lastIdxOf (c : Char) : Str → Option Nat
  | [] => none
  | a :: rest =>
    match lastIdxOf c rest with
    | some j => some (j + 1)
    | none => if a = c then some 0 else none

/-- Model of `re.search(r'\x7b[\s\S]*\x7d', s)` (app.py line 330): the
matched span, from the first opening brace to the last closing brace. -/
def greedyBraceMatch (s : Str) : Option Str :=
  match firstIdxOf '\x7b' s with
  | none => none
  | some i =>
    match lastIdxOf '\x7d' s with
    | none => none
    | some j => if i < j then some ((s.drop i).take (j - i + 1)) else none

/-- app.py lines 330-334: the substring handed to `json.loads` - the
regex match when there is one, otherwise the whole reply. -/
def jsonCandidate (reply : Str) : Str :=
  match greedyBraceMatch reply with
  | some m => m
  | none => reply

/-- Modelled from the spec: depth-tracking scanner that accumulates
characters until the brace that opened the object is closed.  Helper
for `firstBalancedBrace`. -/
def scanBalanced (acc : Str) (depth : Nat) : Str → Option Str
  | [] => none
  | c :: rest =>
    if c = '\x7b' then scanBalanced (acc ++ [c]) (depth + 1) rest
    else if c = '\x7d' then
      if depth = 1 then some (acc ++ [c])
      else scanBalanced (acc ++ [c]) (depth - 1) rest
    else scanBalanced (acc ++ [c]) depth rest

/-- Modelled from the spec: the "first balanced brace-delimited JSON
object substring" of a reply - from the first opening brace to the
matching closing brace at nesting depth zero.  This is the second
definition of a refinement pair: claim C2 asserts the code's
`jsonCandidate` computes this. -/
def firstBalancedBrace (s : Str) : Option Str :=
  match firstIdxOf '\x7b' s with
  | none => none
  | some i => scanBalanced [] 0 (s.drop i)

/-- Claim C2 exactly as stated: whenever the reply contains a first
balanced brace-delimited object, that object is the substring the code
extracts and parses. -/
def C2Statement : Prop :=
  ∀ reply b : Str, firstBalancedBrace reply = some b → jsonCandidate reply = b

/-- Reply refuting C2: a valid JSON object followed by trailing text
that contains a closing brace. -/
def replyCX : Str := lit "\x7b\"a\": 1\x7d tail\x7d"

/-! ### Resume optimization pipeline: `optimize_resume_with_llm` (app.py lines 254-361)

JSON values, as produced by Python's `json.loads`. -/

inductive JVal where
  | jnull
  | jbool (b : Bool)
  | jnum (q : ℚ)
  | jstr (s : Str)
  | jarr (elems : List JVal)
  | jobj (fields : List (Str × JVal))

/-- Python dict key lookup `v[key]`, partial: `none` models a KeyError
(and a non-dict value has no keys). -/
def getField (v : JVal) (key : Str) : Option JVal :=
  match v with
  | JVal.jobj fields => (fields.find? (fun p => p.1 == key)).map Prod.snd
  | _ => none

/-- The environment of `optimize_resume_with_llm`: whether
`boto3.client` succeeded, the outcome of `bedrock.invoke_model` on a
prompt, and the behavior of the external `json.loads` on the extracted
candidate (`.error e` models a raised `json.JSONDecodeError` with
message `e`). -/
structure OptEnv where
  credsOk : Bool
  invoke : Str → Except Str Str
  jsonLoads : Str → Except Str JVal

/-- Literal prompt text before the interpolated `job_posting[:3000]`
(app.py lines 281-289). -/
def optPromptP1 : Str := lit "You are an expert resume writer. Given a job posting and a current resume, \n    create an optimized version of the resume that:\n    1. Highlights skills and experiences most relevant to the job\n    2. Uses keywords from the job posting appropriately\n    3. Maintains truthfulness - only reorganize and emphasize existing content\n    4. Follows best resume practices\n    \n    Job Posting:\n    "

/-- Literal prompt text between the two interpolations (app.py lines 289-292). -/
def optPromptP2 : Str := lit "  # Limit to avoid token limits\n    \n    Current Resume:\n    "

/-- Literal prompt text after the interpolated `resume[:3000]`
(app.py lines 292-299). -/
def optPromptP3 : Str := lit "  # Limit to avoid token limits\n    \n    Provide the response in JSON format with exactly these fields:\n    - \"optimized_resume\": The improved resume text\n    - \"suggestions\": List of specific improvements made\n    - \"match_score\": A score from 0-1 indicating how well the resume matches the job\n    \n    Return only valid JSON, no additional text."

/-- The f-string prompt of app.py lines 281-299: both inputs are
truncated to their first 3000 characters. -/
def optPrompt (job resume : Str) : Str :=
  optPromptP1 ++ job.take 3000 ++ optPromptP2 ++ resume.take 3000 ++ optPromptP3

/-- Common shape of the three fallback dicts of app.py lines 270-279,
340-349 and 352-361: original resume unchanged, a list of suggestion
strings, match score 0.5. -/
def mkFallback (resume : Str) (sugg : List JVal) : JVal :=
  JVal.jobj [
    (lit "optimized_resume", JVal.jstr resume),
    (lit "suggestions", JVal.jarr sugg),
    (lit "match_score", JVal.jnum (1/2))]

/-- app.py lines 270-279: fallback when `boto3.client` construction fails. -/
def fallbackNoCreds (resume : Str) : JVal :=
  mkFallback resume [
    JVal.jstr (lit "Add AWS credentials to .env file for AI-powered optimization"),
    JVal.jstr (lit "Review job requirements and align your skills"),
    JVal.jstr (lit "Highlight relevant experience"),
    JVal.jstr (lit "Use keywords from the job posting")]

/-- app.py lines 340-349: fallback on `json.JSONDecodeError` with message `e`. -/
def fallbackJsonError (resume e : Str) : JVal :=
  mkFallback resume [
    JVal.jstr (lit "AI response parsing error"),
    JVal.jstr (lit "Please review job requirements manually"),
    JVal.jstr (lit "Consider adding keywords from the job posting"),
    JVal.jstr (lit "JSON Error: " ++ e)]

/-- app.py lines 352-361: fallback on any other exception with message `e`. -/
def fallbackApiError (resume e : Str) : JVal :=
  mkFallback resume [
    JVal.jstr (lit "Could not connect to AWS Bedrock service"),
    JVal.jstr (lit "Please check AWS credentials and permissions"),
    JVal.jstr (lit "Ensure you have access to Claude model in Bedrock"),
    JVal.jstr (lit "Error: " ++ e)]

/-- app.py lines 254-361.  The first `try` returns the no-credentials
fallback when client construction fails; inside the second `try` the
model is invoked, the JSON candidate is extracted (lines 330-334) and
parsed; `except json.JSONDecodeError` (line 338) returns the
parse-error fallback and the final `except Exception` (line 350)
returns the API-error fallback.  All exceptions are caught, so the
model is a total function. -/
def optimize_resume_with_llm (env : OptEnv) (job resume : Str) : JVal :=
  if env.credsOk then
    match env.invoke (optPrompt job resume) with
    | Except.ok reply =>
      match env.jsonLoads (jsonCandidate reply) with
      | Except.ok v => v
      | Except.error e => fallbackJsonError resume e
    | Except.error e => fallbackApiError resume e
  else
    fallbackNoCreds resume

/-- The disjunction of failure conditions of app.py lines 260-279 and
338-361: missing credentials, a raising `invoke_model`, or an
unparseable candidate. -/
def optFails (env : OptEnv) (job resume : Str) : Prop :=
  env.credsOk = false ∨
  (∃ e, env.invoke (optPrompt job resume) = Except.error e) ∨
  (∃ reply e, env.invoke (optPrompt job resume) = Except.ok reply ∧
    env.jsonLoads (jsonCandidate reply) = Except.error e)

/-- Claim C3 exactly as stated: every returned result, on the success
path and on every fallback path alike, carries a `match_score` field in
the closed interval from 0 to 1. -/
def C3Statement : Prop :=
  ∀ (env : OptEnv) (job resume : Str), ∃ q : ℚ,
    getField (optimize_resume_with_llm env job resume) (lit "match_score") =
      some (JVal.jnum q) ∧ 0 ≤ q ∧ q ≤ 1

/-- Environment refuting C3: the LLM replies with a well-formed JSON
object whose match score is 2, and `jsonLoads` maps that candidate to
the value Python's `json.loads` actually returns for it. -/
def optEnvCX : OptEnv :=
  ⟨true,
   fun _ => Except.ok (lit "\x7b\"match_score\": 2\x7d"),
   fun _ => Except.ok (JVal.jobj [(lit "match_score", JVal.jnum 2)])⟩

/-- Environment for the C3 witness: client construction fails. -/
def optEnvW3 : OptEnv := ⟨false, fun _ => Except.error [], fun _ => Except.error []⟩

/-- Environment for the C4 witness: `invoke_model` raises. -/
def optEnvW4 : OptEnv := ⟨true, fun _ => Except.error (lit "EndpointConnectionError"), fun _ => Except.error []⟩

/-- Claim C5 exactly as stated: the pair returned by
`scrape_job_posting` is always two non-empty strings, and the
`optimized_resume` of every optimization result is a non-empty string. -/
def C5Statement : Prop :=
  (∀ env : ScrapeEnv,
    (scrape_job_posting env).cleansed ≠ [] ∧ (scrape_job_posting env).raw ≠ []) ∧
  (∀ (env : OptEnv) (job resume : Str), ∃ s,
    getField (optimize_resume_with_llm env job resume) (lit "optimized_resume") =
      some (JVal.jstr s) ∧ s ≠ [])

/-- Environment refuting C5: the rendered fetch succeeds with 101
characters and the cleansing LLM call succeeds with an empty reply, so
the returned `cleansed_text` is empty. -/
def scrapeEnvCX5 : ScrapeEnv :=
  ⟨Except.error (lit "blocked"), fun _ => Except.ok (List.replicate 101 'a'),
   ⟨true, fun _ => Except.ok []⟩⟩

/-! ### Resume parser (app.py lines 237-252 and 392-399) -/

/-- Python's whitespace class over ASCII: the characters matched by
`\s` in `re.sub` and stripped by `str.strip`. -/
def isPySpace (c : Char) : Bool :=
  c = ' ' || c = '\t' || c = '\n' || c = '\r' || c = '\x0b' || c = '\x0c'

/-- Model of `re.sub(r'\s+', ' ', s)`: the flag records whether the
scanner is inside a whitespace run whose single replacement space has
already been emitted. -/
def collapseWsAux : Bool → Str → Str
  | _, [] => []
  | true, c :: rest =>
    if isPySpace c then collapseWsAux true rest
    else c :: collapseWsAux false rest
  | false, c :: rest =>
    if isPySpace c then ' ' :: collapseWsAux true rest
    else c :: collapseWsAux false rest

/-- `re.sub(r'\s+', ' ', s)` (app.py line 251). -/
def collapseWs (s : Str) : Str := collapseWsAux false s

/-- Python `str.strip()`: drop leading and trailing whitespace. -/
def pyStrip (s : Str) : Str :=
  ((s.dropWhile isPySpace).reverse.dropWhile isPySpace).reverse

/-- app.py lines 237-244: PyPDF2 page extraction is external, so the
extracted page texts are the input; the loop appends each page text
plus a newline separator and the result is stripped.  (The parse-error
branch of line 245, raising HTTP 400, is the fatal path and is not part
of the value computed here.) -/
def parse_pdf_resume (pages : List Str) : Str :=
  pyStrip (pages.foldl (fun acc page => acc ++ page ++ ['\n']) [])

/-- app.py lines 248-252: collapse whitespace runs, then strip. -/
def parse_text_resume (content : Str) : Str :=
  pyStrip (collapseWs content)

/-- app.py lines 392-399: dispatch on the uploaded filename -
`filename.lower().endswith('.pdf')` chooses the PDF extractor,
everything else is decoded as UTF-8 (decoding is external; `content`
is the decoded text). -/
def parseUploadedResume (filename : Str) (pdfPages : List Str) (content : Str) : Str :=
  if (lit ".pdf").isSuffixOf (filename.map Char.toLower) then parse_pdf_resume pdfPages
  else parse_text_resume content

/-- True when the first character exists and is whitespace. -/
def firstIsWs : Str → Bool
  | [] => false
  | c :: _ => isPySpace c

/-- True when the string has no two adjacent whitespace characters. -/
def noTwoWs : Str → Bool
  | [] => true
  | [_] => true
  | a :: b :: rest => !(isPySpace a && isPySpace b) && noTwoWs (b :: rest)

/-- True when every whitespace character of the string is a plain space. -/
def allWsSpace (s : Str) : Bool := s.all (fun c => !isPySpace c || c == ' ')

/-- True when the string neither starts nor ends with whitespace. -/
def trimmed (s : Str) : Bool := !firstIsWs s && !firstIsWs s.reverse

/-- Every whitespace run collapsed to a single space, and no leading or
trailing whitespace. -/
def normalizedWs (s : Str) : Bool := noTwoWs s && allWsSpace s && trimmed s

/-- Claim C6 exactly as stated: on either parser path the resulting
text has every whitespace run collapsed to a single space and is
trimmed. -/
def C6Statement : Prop :=
  ∀ (filename : Str) (pdfPages : List Str) (content : Str),
    normalizedWs (parseUploadedResume filename pdfPages content) = true

/-! ### Persistence handlers (app.py lines 484-514, models.py lines 6-25) -/

/-- models.py lines 6-25: the persisted optimization record; datetimes
are opaque timestamps. -/
structure ResumeOptimization where
  id : Option Str
  user_email : Str
  job_url : Str
  job_title : Option Str
  company_name : Option Str
  job_posting_content : Str
  job_posting_raw : Option Str
  original_resume : Str
  optimized_resume : Str
  suggestions : List Str
  match_score : ℚ
  created_at : Nat
  updated_at : Nat

/-- A raised `HTTPException(status_code, detail)`. -/
structure HTTPError where
  status : Nat
  detail : Str

/-- One observable operation issued against the Mongo collection. -/
inductive DbOp where
  | findOneOp (id : Str)
  | deleteOneOp (id : Str)

/-- Environment of the id-based handlers: the external
`bson.ObjectId.is_valid` predicate, and the collection's `find_one`
result and `delete_one` deleted count per identifier. -/
structure Mongo where
  objectIdValid : Str → Bool
  findOne : Str → Option ResumeOptimization
  deleteOneCount : Str → Nat

/-- app.py lines 484-498: reject an invalid-format id with 400 before
touching the collection, answer 404 when `find_one` returns nothing.
The second component is the trace of collection operations issued. -/
def get_optimization (db : Mongo) (optimization_id : Str) :
    Except HTTPError ResumeOptimization × List DbOp :=
  if db.objectIdValid optimization_id then
    match db.findOne optimization_id with
    | some doc => (Except.ok doc, [DbOp.findOneOp optimization_id])
    | none =>
      (Except.error ⟨404, lit "Optimization not found"⟩, [DbOp.findOneOp optimization_id])
  else
    (Except.error ⟨400, lit "Invalid optimization ID"⟩, [])

/-- app.py lines 500-514: reject an invalid-format id with 400 before
touching the collection, answer 404 when the deleted count is zero. -/
def delete_optimization (db : Mongo) (optimization_id : Str) :
    Except HTTPError Str × List DbOp :=
  if db.objectIdValid optimization_id then
    if db.deleteOneCount optimization_id = 0 then
      (Except.error ⟨404, lit "Optimization not found"⟩, [DbOp.deleteOneOp optimization_id])
    else
      (Except.ok (lit "Optimization deleted successfully"), [DbOp.deleteOneOp optimization_id])
  else
    (Except.error ⟨400, lit "Invalid optimization ID"⟩, [])

/-- Concrete store for the C9 witness: ids are valid when 24
characters long, nothing is stored. -/
def mongoW : Mongo := ⟨fun s => s.length == 24, fun _ => none, fun _ => 0⟩

/-! ### The `/optimize-json` handler (app.py lines 432-474) -/

/-- The keyword arguments passed to the `ResumeOptimization`
constructor at app.py lines 449-458; the three optimization values are
the raw dict entries read there (their pydantic validation is
external). -/
structure InsertedDoc where
  user_email : Str
  job_url : Str
  job_posting_content : Str
  job_posting_raw : Str
  original_resume : Str
  optimized_resume : JVal
  suggestions : JVal
  match_score : JVal

/-- One externally observable side effect of the handler. -/
inductive ApiEvent where
  | scrapeCall (url : Str)
  | insertOne (doc : InsertedDoc)

/-- The response model of app.py lines 46-52, fields carried as the
dict values read at lines 465-472. -/
structure ResumeResponse where
  id : Str
  optimized_resume : JVal
  suggestions : JVal
  match_score : JVal
  created_at : Nat
  job_posting_content : Str

/-- How the handler terminates: a normal response, a raised
`HTTPException`, or an uncaught `KeyError` from a missing dict key. -/
inductive HandlerOutcome where
  | ok (r : ResumeResponse)
  | httpError (e : HTTPError)
  | keyError (key : Str)

/-- Environment of the `/optimize-json` handler: the scraping and
optimization environments, the store-assigned id of the insert, and
the clock value used for `created_at`. -/
structure JsonEnv where
  scrapeEnv : ScrapeEnv
  optEnv : OptEnv
  insertedId : Str
  now : Nat

/-- app.py lines 432-474.  The scrape of line 437 runs before the
resume_text check of line 439, so the 400 for a missing or empty
resume_text is raised only after the scrape's outbound network calls;
the event trace records this order.  On the main path the optimization
dict's keys are read while building the document (a missing key is an
uncaught KeyError), the document is inserted, and the response echoes
the same values. -/
def optimize_resume_json (env : JsonEnv) (url : Str) (resume_text : Option Str) :
    HandlerOutcome × List ApiEvent :=
  let scraped := scrape_job_posting env.scrapeEnv
  if resume_text.getD [] = [] then
    (HandlerOutcome.httpError ⟨400, lit "resume_text must be provided in JSON request"⟩,
     [ApiEvent.scrapeCall url])
  else
    let resume_content := parse_text_resume (resume_text.getD [])
    let result := optimize_resume_with_llm env.optEnv scraped.cleansed resume_content
    match getField result (lit "optimized_resume") with
    | none => (HandlerOutcome.keyError (lit "optimized_resume"), [ApiEvent.scrapeCall url])
    | some vop =>
      match getField result (lit "suggestions") with
      | none => (HandlerOutcome.keyError (lit "suggestions"), [ApiEvent.scrapeCall url])
      | some vsug =>
        match getField result (lit "match_score") with
        | none => (HandlerOutcome.keyError (lit "match_score"), [ApiEvent.scrapeCall url])
        | some vms =>
          let doc : InsertedDoc :=
            ⟨lit "anonymous@example.com", url, scraped.cleansed, scraped.raw,
             resume_content, vop, vsug, vms⟩
          (HandlerOutcome.ok
            ⟨env.insertedId, vop, vsug, vms, env.now, scraped.cleansed⟩,
           [ApiEvent.scrapeCall url, ApiEvent.insertOne doc])

/-- Environment for the C10 witness. -/
def jsonEnvW : JsonEnv :=
  ⟨⟨Except.error (lit "blocked"), fun _ => Except.error (lit "Timeout"),
    ⟨false, fun _ => Except.error []⟩⟩,
   ⟨false, fun _ => Except.error [], fun _ => Except.error []⟩,
   lit "507f1f77bcf86cd799439011", 0⟩

end ResumeAlign

namespace ResumeAlign

/-- Claim C1 as frozen is false on the code: when the static fetch
succeeds with at most 500 characters and the line-211 Playwright call
raises, the `except` block of line 222 calls Playwright a second time,
so a failure can be preceded by two attempts, not exactly one. -/
theorem scrape_short_playwright_once_refuted : ¬ C1Statement := by
  intro h
  have := h scrapeEnvCX (Or.inl ⟨[], rfl, by decide⟩) rfl
  simp [scrape_job_posting, scrapeEnvCX] at this

/-- Claim C1 amended: whenever the static fetch is short or raises,
any failure result is preceded by at least one and at most two
Playwright attempts, and exactly two happen precisely when the static
fetch succeeded short and the first Playwright attempt raised. -/
theorem scrape_short_playwright_attempts (env : ScrapeEnv)
    (h : staticShortOrErr env) (hf : (scrape_job_posting env).failed = true) :
    1 ≤ (scrape_job_posting env).pwAttempts ∧
    (scrape_job_posting env).pwAttempts ≤ 2 ∧
    ((scrape_job_posting env).pwAttempts = 2 ↔
      (∃ t, env.staticFetch = Except.ok t ∧ t.length ≤ 500) ∧
      (∃ e, env.pw 0 = Except.error e)) := by
  rcases hs : env.staticFetch with e | t
  · rcases hp : env.pw 0 with e2 | t2
    · simp [scrape_job_posting, hs, hp]
    · by_cases h2 : 100 < t2.length
      · simp [scrape_job_posting, hs, hp, h2] at hf
      · simp [scrape_job_posting, hs, hp, h2]
  · have hle : t.length ≤ 500 := by
      rcases h with ⟨t', ht', hle'⟩ | ⟨e', he'⟩
      · rw [hs] at ht'
        injection ht' with h1
        rw [h1]
        exact hle'
      · rw [hs] at he'
        exact Except.noConfusion he'
    have hnot : ¬ 500 < t.length := by omega
    rcases hp : env.pw 0 with e2 | t2
    · rcases hq : env.pw 1 with e3 | t3
      · simp [scrape_job_posting, hs, hp, hq, hnot, hle]
      · by_cases h3 : 100 < t3.length
        · simp [scrape_job_posting, hs, hp, hq, hnot, h3] at hf
        · simp [scrape_job_posting, hs, hp, hq, hnot, h3, hle]
    · by_cases h2 : 100 < t2.length
      · simp [scrape_job_posting, hs, hp, hnot, h2] at hf
      · simp [scrape_job_posting, hs, hp, hnot, h2]

/-- Witness for the amended C1 at a concrete environment where the
static fetch raises. -/
theorem scrape_short_playwright_attempts_witness :
    1 ≤ (scrape_job_posting scrapeEnvW).pwAttempts ∧
    (scrape_job_posting scrapeEnvW).pwAttempts ≤ 2 ∧
    ((scrape_job_posting scrapeEnvW).pwAttempts = 2 ↔
      (∃ t, scrapeEnvW.staticFetch = Except.ok t ∧ t.length ≤ 500) ∧
      (∃ e, scrapeEnvW.pw 0 = Except.error e)) :=
  scrape_short_playwright_attempts scrapeEnvW (Or.inr ⟨lit "ConnectError", rfl⟩) rfl

/-- Claim C7: when the static fetch succeeds with strictly more than
500 characters, Playwright is never invoked. -/
theorem scrape_long_static_no_playwright (env : ScrapeEnv) (t : Str)
    (h : env.staticFetch = Except.ok t) (hlen : 500 < t.length) :
    (scrape_job_posting env).pwAttempts = 0 := by
  simp [scrape_job_posting, h, hlen]

/-- Witness for C7 at a 501-character static fetch. -/
theorem scrape_long_static_no_playwright_witness :
    (scrape_job_posting scrapeEnvW7).pwAttempts = 0 :=
  scrape_long_static_no_playwright scrapeEnvW7 (List.replicate 501 'a') rfl
    (by rw [List.length_replicate]; omega)

/-- Claim C8: the only part of the input embedded in the prompt is its
first at-most-8000-character prefix, and on any failure (missing
credentials or a raising invoke) the function returns exactly the first
5000 characters of the raw input; totality of the model reflects that
no exception escapes. -/
theorem cleanse_truncates_and_falls_back (env : CleanseEnv) (raw : Str)
    (hfail : env.credsOk = false ∨ ∃ e, env.invoke (cleansePrompt raw) = Except.error e) :
    (raw.take 8000).length ≤ 8000 ∧
    raw.take 8000 <+: raw ∧
    cleanse_job_posting_with_llm env raw = raw.take 5000 := by
  refine ⟨?_, List.take_prefix _ _, ?_⟩
  · simp [List.length_take]
  · rcases hfail with h | ⟨e, h⟩
    · simp [cleanse_job_posting_with_llm, h]
    · rcases hc : env.credsOk with _ | _ <;>
        simp [cleanse_job_posting_with_llm, hc, h]

/-- Witness for C8 at a concrete credential-less environment. -/
theorem cleanse_truncates_and_falls_back_witness :
    ((lit "hello world").take 8000).length ≤ 8000 ∧
    (lit "hello world").take 8000 <+: lit "hello world" ∧
    cleanse_job_posting_with_llm cleanseEnvW (lit "hello world") = (lit "hello world").take 5000 :=
  cleanse_truncates_and_falls_back cleanseEnvW (lit "hello world") (Or.inl rfl)

/-- Every fallback dict of `optimize_resume_with_llm` keeps the
original resume and scores one half; the three failure branches differ
only in their suggestion lists. -/
theorem optimize_fallback_fields (env : OptEnv) (job resume : Str)
    (h : optFails env job resume) :
    getField (optimize_resume_with_llm env job resume) (lit "optimized_resume") =
      some (JVal.jstr resume) ∧
    getField (optimize_resume_with_llm env job resume) (lit "match_score") =
      some (JVal.jnum (1/2)) := by
  have hval : ∃ sugg, optimize_resume_with_llm env job resume = mkFallback resume sugg := by
    by_cases hc : env.credsOk = true
    · rcases h with h | ⟨e, he⟩ | ⟨reply, e, h1, h2⟩
      · rw [hc] at h
        cases h
      · have hv : optimize_resume_with_llm env job resume = fallbackApiError resume e := by
          simp only [optimize_resume_with_llm, hc, if_true, he]
        exact ⟨_, hv⟩
      · have hv : optimize_resume_with_llm env job resume = fallbackJsonError resume e := by
          simp only [optimize_resume_with_llm, hc, if_true, h1, h2]
        exact ⟨_, hv⟩
    · have hc' : env.credsOk = false := by
        revert hc
        cases env.credsOk <;> simp
      have hv : optimize_resume_with_llm env job resume = fallbackNoCreds resume := by
        simp only [optimize_resume_with_llm, hc']
        rfl
      exact ⟨_, hv⟩
  obtain ⟨sugg, hval⟩ := hval
  rw [hval]
  exact ⟨rfl, rfl⟩

/-- Claim C4: on every failure path - missing credentials, a raising
LLM call, or an unparseable reply - `optimize_resume_with_llm` returns
the deterministic fallback with the resume unchanged and match score
0.5; the model being a total function reflects that no exception
propagates to the caller. -/
theorem optimize_always_falls_back (env : OptEnv) (job resume : Str)
    (h : optFails env job resume) :
    getField (optimize_resume_with_llm env job resume) (lit "optimized_resume") =
      some (JVal.jstr resume) ∧
    getField (optimize_resume_with_llm env job resume) (lit "match_score") =
      some (JVal.jnum (1/2)) :=
  optimize_fallback_fields env job resume h

/-- Witness for C4 at a concrete environment whose `invoke_model` raises. -/
theorem optimize_always_falls_back_witness :
    getField (optimize_resume_with_llm optEnvW4 (lit "job") (lit "resume")) (lit "optimized_resume") =
      some (JVal.jstr (lit "resume")) ∧
    getField (optimize_resume_with_llm optEnvW4 (lit "job") (lit "resume")) (lit "match_score") =
      some (JVal.jnum (1/2)) :=
  optimize_always_falls_back optEnvW4 (lit "job") (lit "resume")
    (Or.inr (Or.inl ⟨lit "EndpointConnectionError", rfl⟩))

/-- Claim C3 as frozen is false on the code: the success path returns
the parsed JSON unvalidated, so a reply scoring 2 yields a result whose
match score is 2, outside the unit interval. -/
theorem match_score_unvalidated : ¬ C3Statement := by
  intro h
  obtain ⟨q, hq, h0, h1⟩ := h optEnvCX (lit "job") (lit "resume")
  have hv : getField (optimize_resume_with_llm optEnvCX (lit "job") (lit "resume"))
      (lit "match_score") = some (JVal.jnum 2) := rfl
  rw [hv] at hq
  injection hq with hq'
  injection hq' with hq''
  rw [← hq''] at h1
  norm_num at h1

/-- Claim C3 amended: on every fallback path the match score is
exactly one half, which lies in the unit interval; on the success path
the parsed value is returned with no validation at all. -/
theorem match_score_half_on_fallback (env : OptEnv) (job resume : Str)
    (h : optFails env job resume) :
    getField (optimize_resume_with_llm env job resume) (lit "match_score") =
      some (JVal.jnum (1/2)) ∧ (0:ℚ) ≤ 1/2 ∧ (1/2:ℚ) ≤ 1 :=
  ⟨(optimize_fallback_fields env job resume h).2, by norm_num, by norm_num⟩

/-- Witness for the amended C3 at a concrete credential-less environment. -/
theorem match_score_half_on_fallback_witness :
    getField (optimize_resume_with_llm optEnvW3 (lit "job") (lit "resume")) (lit "match_score") =
      some (JVal.jnum (1/2)) ∧ (0:ℚ) ≤ 1/2 ∧ (1/2:ℚ) ≤ 1 :=
  match_score_half_on_fallback optEnvW3 (lit "job") (lit "resume") (Or.inl rfl)

/-- Claim C2 as frozen is false on the code: the regex of line 330 is
greedy, so for a reply holding a valid JSON object followed by trailing
text that contains a closing brace, the parsed substring runs to the
last closing brace and is not the first balanced object. -/
theorem json_candidate_not_first_balanced : ¬ C2Statement := by
  intro h
  have := h replyCX (lit "\x7b\"a\": 1\x7d") (by decide)
  exact absurd this (by decide)

/-- Whatever `scanBalanced` returns extends the accumulator by a
nonempty prefix of the remaining input that ends in a closing brace. -/
theorem scanBalanced_spec : ∀ (t acc : Str) (d : Nat) (b : Str),
    scanBalanced acc d t = some b →
    ∃ u, b = acc ++ u ∧ u ≠ [] ∧ (∃ w, u = w ++ ['\x7d']) ∧ u <+: t := by
  intro t
  induction t with
  | nil =>
    intro acc d b h
    exact absurd h (by simp [scanBalanced])
  | cons c rest ih =>
    intro acc d b h
    by_cases h1 : c = '\x7b'
    · rw [scanBalanced, if_pos h1] at h
      obtain ⟨u, hb, hne, ⟨w, hw⟩, v, hv⟩ := ih (acc ++ [c]) (d + 1) b h
      exact ⟨c :: u, by simp [hb], by simp, ⟨c :: w, by simp [hw]⟩, v,
        by rw [List.cons_append, hv]⟩
    · by_cases h2 : c = '\x7d'
      · rw [scanBalanced, if_neg h1, if_pos h2] at h
        by_cases h3 : d = 1
        · rw [if_pos h3] at h
          injection h with h4
          refine ⟨[c], h4.symm, by simp, ⟨[], by simp [h2]⟩, rest, rfl⟩
        · rw [if_neg h3] at h
          obtain ⟨u, hb, hne, ⟨w, hw⟩, v, hv⟩ := ih (acc ++ [c]) (d - 1) b h
          exact ⟨c :: u, by simp [hb], by simp, ⟨c :: w, by simp [hw]⟩, v,
            by rw [List.cons_append, hv]⟩
      · rw [scanBalanced, if_neg h1, if_neg h2] at h
        obtain ⟨u, hb, hne, ⟨w, hw⟩, v, hv⟩ := ih (acc ++ [c]) d b h
        exact ⟨c :: u, by simp [hb], by simp, ⟨c :: w, by simp [hw]⟩, v,
          by rw [List.cons_append, hv]⟩

/-- Soundness of `firstIdxOf`: the returned index holds the character. -/
theorem firstIdxOf_mem (c : Char) : ∀ (s : Str) (i : Nat),
    firstIdxOf c s = some i → s[i]? = some c := by
  intro s
  induction s with
  | nil =>
    intro i h
    exact absurd h (by simp [firstIdxOf])
  | cons a rest ih =>
    intro i h
    rw [firstIdxOf] at h
    by_cases ha : a = c
    · rw [if_pos ha] at h
      injection h with h1
      rw [← h1, ha]
      simp
    · rw [if_neg ha] at h
      rcases hrec : firstIdxOf c rest with _ | j
      · rw [hrec] at h
        cases h
      · rw [hrec] at h
        injection h with h1
        rw [← h1]
        simpa using ih j hrec

/-- Soundness of `lastIdxOf`: the returned index holds the character. -/
theorem lastIdxOf_mem (c : Char) : ∀ (s : Str) (j : Nat),
    lastIdxOf c s = some j → s[j]? = some c := by
  intro s
  induction s with
  | nil =>
    intro j h
    exact absurd h (by simp [lastIdxOf])
  | cons a rest ih =>
    intro j h
    rw [lastIdxOf] at h
    rcases hrec : lastIdxOf c rest with _ | j'
    · rw [hrec] at h
      by_cases ha : a = c
      · simp only [if_pos ha] at h
        injection h with h1
        rw [← h1, ha]
        simp
      · simp only [if_neg ha] at h
        cases h
    · rw [hrec] at h
      injection h with h1
      rw [← h1]
      simpa using ih j' hrec

/-- Completeness of `lastIdxOf`: if the character occurs, some index is
returned. -/
theorem lastIdxOf_exists (c : Char) : ∀ (s : Str) (k : Nat),
    s[k]? = some c → ∃ j, lastIdxOf c s = some j := by
  intro s
  induction s with
  | nil =>
    intro k h
    simp at h
  | cons a rest ih =>
    intro k h
    rcases hrec : lastIdxOf c rest with _ | j'
    · cases k with
      | zero =>
        simp only [List.getElem?_cons_zero] at h
        injection h with h1
        exact ⟨0, by rw [lastIdxOf, hrec, if_pos h1]⟩
      | succ k' =>
        rw [List.getElem?_cons_succ] at h
        obtain ⟨j, hj⟩ := ih k' h
        rw [hj] at hrec
        cases hrec
    · exact ⟨j' + 1, by rw [lastIdxOf, hrec]⟩

/-- Maximality of `lastIdxOf`: no occurrence lies beyond the returned
index. -/
theorem lastIdxOf_ge (c : Char) : ∀ (s : Str) (j k : Nat),
    lastIdxOf c s = some j → s[k]? = some c → k ≤ j := by
  intro s
  induction s with
  | nil =>
    intro j k hj hk
    simp at hk
  | cons a rest ih =>
    intro j k hj hk
    rw [lastIdxOf] at hj
    rcases hrec : lastIdxOf c rest with _ | j'
    · rw [hrec] at hj
      by_cases ha : a = c
      · simp only [if_pos ha] at hj
        injection hj with h1
        cases k with
        | zero => omega
        | succ k' =>
          rw [List.getElem?_cons_succ] at hk
          obtain ⟨j'', hj''⟩ := lastIdxOf_exists c rest k' hk
          rw [hj''] at hrec
          cases hrec
      · simp only [if_neg ha] at hj
        cases hj
    · rw [hrec] at hj
      injection hj with h1
      cases k with
      | zero => omega
      | succ k' =>
        rw [List.getElem?_cons_succ] at hk
        have := ih j' k' hrec hk
        omega

/-- Claim C2 amended: the code extracts the greedy span from the first
opening brace to the last closing brace, so the first balanced
brace-delimited object is always a prefix - possibly a proper prefix,
as the counterexample shows - of the substring that gets parsed. -/
theorem json_candidate_extends_first_balanced (reply b : Str)
    (h : firstBalancedBrace reply = some b) : b <+: jsonCandidate reply := by
  rw [firstBalancedBrace] at h
  rcases hi : firstIdxOf '\x7b' reply with _ | i
  · rw [hi] at h
    cases h
  · rw [hi] at h
    obtain ⟨u, hb, hne, ⟨w, hw⟩, v, hv⟩ := scanBalanced_spec (reply.drop i) [] 0 b h
    rw [List.nil_append] at hb
    rw [hb]
    have hulen : 0 < u.length := List.length_pos.mpr hne
    have hlast : u[u.length - 1]? = some '\x7d' := by
      rw [hw]
      have hl : (w ++ ['\x7d']).length - 1 = w.length := by simp
      rw [hl]
      exact List.getElem?_concat_length w ('\x7d')
    have hrep : reply[i + (u.length - 1)]? = some '\x7d' := by
      rw [← List.getElem?_drop, ← hv,
        List.getElem?_append_left (show u.length - 1 < u.length by omega)]
      exact hlast
    obtain ⟨j, hj⟩ := lastIdxOf_exists '\x7d' reply (i + (u.length - 1)) hrep
    have hle : i + (u.length - 1) ≤ j := lastIdxOf_ge '\x7d' reply j _ hj hrep
    have hhead : u[0]? = some '\x7b' := by
      have h0 : (reply.drop i)[0]? = some '\x7b' := by
        rw [List.getElem?_drop]
        simpa using firstIdxOf_mem '\x7b' reply i hi
      rw [← hv, List.getElem?_append_left hulen] at h0
      exact h0
    have hu2 : 2 ≤ u.length := by
      by_contra hcon
      have h1 : u.length = 1 := by omega
      rw [h1] at hlast
      simp only [Nat.sub_self] at hlast
      have : ('\x7b' : Char) = '\x7d' := by
        have := hhead.symm.trans hlast
        injection this
      exact absurd this (by decide)
    have hcand : jsonCandidate reply = (reply.drop i).take (j - i + 1) := by
      have hg : greedyBraceMatch reply = some ((reply.drop i).take (j - i + 1)) := by
        have hij : i < j := by omega
        simp only [greedyBraceMatch, hi, hj, if_pos hij]
      simp [jsonCandidate, hg]
    rw [hcand, List.prefix_take_iff]
    exact ⟨⟨v, hv⟩, by omega⟩

/-- Witness for the amended C2: at the counterexample reply, the first
balanced object is a (proper) prefix of the parsed substring. -/
theorem json_candidate_extends_first_balanced_witness :
    lit "\x7b\"a\": 1\x7d" <+: jsonCandidate replyCX :=
  json_candidate_extends_first_balanced replyCX (lit "\x7b\"a\": 1\x7d") (by decide)

/-- The cleanser returns the empty string only when the LLM call
succeeded with an empty reply: both fallback branches return a prefix
of the non-empty raw input. -/
theorem cleanse_empty (cenv : CleanseEnv) (raw : Str) (hlen : 0 < raw.length)
    (h : cleanse_job_posting_with_llm cenv raw = []) :
    cenv.credsOk = true ∧ cenv.invoke (cleansePrompt raw) = Except.ok [] := by
  have hraw : ¬ raw.take 5000 = [] := by
    intro hc
    rcases List.take_eq_nil_iff.mp hc with h5 | h5
    · cases h5
    · rw [h5] at hlen
      simp at hlen
  by_cases hc : cenv.credsOk = true
  · rw [cleanse_job_posting_with_llm] at h
    rw [hc] at h
    simp only [if_true] at h
    rcases hinv : cenv.invoke (cleansePrompt raw) with e | reply
    · rw [hinv] at h
      exact absurd h hraw
    · rw [hinv] at h
      have h' : reply = [] := h
      exact ⟨hc, by rw [h']⟩
  · have hc' : cenv.credsOk = false := by
      revert hc
      cases cenv.credsOk <;> simp
    rw [cleanse_job_posting_with_llm, hc'] at h
    simp only [Bool.false_eq_true, if_false] at h
    exact absurd h hraw

/-- Claim C5 as frozen is false on the code: when the cleansing LLM
call succeeds with an empty reply, the returned `cleansed_text` is the
empty string - no emptiness check exists on the success path. -/
theorem nonempty_strings_refuted : ¬ C5Statement := by
  intro h
  exact (h.1 scrapeEnvCX5).1 rfl

/-- Claim C5 amended: `raw_text` is non-empty on every path;
`cleansed_text` can be empty only when the cleansing LLM call succeeded
with an empty reply; and on every optimization fallback path
`optimized_resume` is non-empty provided the input resume is. -/
theorem nonempty_strings_amended (env : ScrapeEnv) (oenv : OptEnv) (job resume : Str)
    (hfail : optFails oenv job resume) (hres : resume ≠ []) :
    (scrape_job_posting env).raw ≠ [] ∧
    ((scrape_job_posting env).cleansed = [] →
      env.cleanseEnv.credsOk = true ∧
      env.cleanseEnv.invoke (cleansePrompt (scrape_job_posting env).raw) = Except.ok []) ∧
    getField (optimize_resume_with_llm oenv job resume) (lit "optimized_resume") ≠
      some (JVal.jstr []) := by
  refine ⟨?_, ?_, ?_⟩
  case refine_3 =>
    intro hc
    rw [(optimize_fallback_fields oenv job resume hfail).1] at hc
    injection hc with hc'
    injection hc' with hc''
    exact hres hc''
  all_goals
    rcases hs : env.staticFetch with e | t
  case refine_1.error =>
    rcases hp : env.pw 0 with e2 | t2
    · simp only [scrape_job_posting, hs, hp]
      intro hc
      exact absurd ((List.append_eq_nil).mp hc).1 (by decide)
    · by_cases h2 : 100 < t2.length
      · simp only [scrape_job_posting, hs, hp, if_pos h2]
        exact List.length_pos.mp (by omega)
      · simp only [scrape_job_posting, hs, hp, if_neg h2]
        intro hc
        exact absurd ((List.append_eq_nil).mp hc).1 (by decide)
  case refine_1.ok =>
    by_cases hlen : 500 < t.length
    · simp only [scrape_job_posting, hs, if_pos hlen]
      exact List.length_pos.mp (by omega)
    · rcases hp : env.pw 0 with e2 | t2
      · rcases hq : env.pw 1 with e3 | t3
        · simp only [scrape_job_posting, hs, hp, hq, if_neg hlen]
          intro hc
          exact absurd ((List.append_eq_nil).mp hc).1 (by decide)
        · by_cases h3 : 100 < t3.length
          · simp only [scrape_job_posting, hs, hp, hq, if_neg hlen, if_pos h3]
            exact List.length_pos.mp (by omega)
          · simp only [scrape_job_posting, hs, hp, hq, if_neg hlen, if_neg h3]
            intro hc
            exact absurd ((List.append_eq_nil).mp hc).1 (by decide)
      · by_cases h2 : 100 < t2.length
        · simp only [scrape_job_posting, hs, hp, if_neg hlen, if_pos h2]
          exact List.length_pos.mp (by omega)
        · simp only [scrape_job_posting, hs, hp, if_neg hlen, if_neg h2]
          intro hc
          exact absurd hc (by decide)
  case refine_2.error =>
    rcases hp : env.pw 0 with e2 | t2
    · simp only [scrape_job_posting, hs, hp]
      intro hc
      exact absurd ((List.append_eq_nil).mp hc).1 (by decide)
    · by_cases h2 : 100 < t2.length
      · simp only [scrape_job_posting, hs, hp, if_pos h2]
        exact cleanse_empty env.cleanseEnv t2 (by omega)
      · simp only [scrape_job_posting, hs, hp, if_neg h2]
        intro hc
        exact absurd ((List.append_eq_nil).mp hc).1 (by decide)
  case refine_2.ok =>
    by_cases hlen : 500 < t.length
    · simp only [scrape_job_posting, hs, if_pos hlen]
      exact cleanse_empty env.cleanseEnv t (by omega)
    · rcases hp : env.pw 0 with e2 | t2
      · rcases hq : env.pw 1 with e3 | t3
        · simp only [scrape_job_posting, hs, hp, hq, if_neg hlen]
          intro hc
          exact absurd ((List.append_eq_nil).mp hc).1 (by decide)
        · by_cases h3 : 100 < t3.length
          · simp only [scrape_job_posting, hs, hp, hq, if_neg hlen, if_pos h3]
            exact cleanse_empty env.cleanseEnv t3 (by omega)
          · simp only [scrape_job_posting, hs, hp, hq, if_neg hlen, if_neg h3]
            intro hc
            exact absurd ((List.append_eq_nil).mp hc).1 (by decide)
      · by_cases h2 : 100 < t2.length
        · simp only [scrape_job_posting, hs, hp, if_neg hlen, if_pos h2]
          exact cleanse_empty env.cleanseEnv t2 (by omega)
        · simp only [scrape_job_posting, hs, hp, if_neg hlen, if_neg h2]
          intro hc
          exact absurd hc (by decide)

/-- Witness for the amended C5 at concrete environments. -/
theorem nonempty_strings_amended_witness :
    (scrape_job_posting scrapeEnvW).raw ≠ [] ∧
    ((scrape_job_posting scrapeEnvW).cleansed = [] →
      scrapeEnvW.cleanseEnv.credsOk = true ∧
      scrapeEnvW.cleanseEnv.invoke (cleansePrompt (scrape_job_posting scrapeEnvW).raw) =
        Except.ok []) ∧
    getField (optimize_resume_with_llm optEnvW3 (lit "job") (lit "resume"))
      (lit "optimized_resume") ≠ some (JVal.jstr []) :=
  nonempty_strings_amended scrapeEnvW optEnvW3 (lit "job") (lit "resume")
    (Or.inl rfl) (by decide)

/-- Unfolding of `noTwoWs` on a cons in terms of the head of the tail. -/
theorem noTwoWs_cons (a : Char) (l : Str) :
    noTwoWs (a :: l) = (!(isPySpace a && firstIsWs l) && noTwoWs l) := by
  cases l <;> simp [noTwoWs, firstIsWs]

/-- The output of the whitespace-collapsing scanner has no adjacent
whitespace pair, every whitespace in it is a plain space, and when the
scanner starts inside a run its output does not start with whitespace. -/
theorem collapseWsAux_flags : ∀ (s : Str) (b : Bool),
    noTwoWs (collapseWsAux b s) = true ∧
    allWsSpace (collapseWsAux b s) = true ∧
    (b = true → firstIsWs (collapseWsAux b s) = false) := by
  intro s
  induction s with
  | nil =>
    intro b
    refine ⟨?_, ?_, fun _ => ?_⟩ <;> cases b <;> rfl
  | cons c rest ih =>
    intro b
    by_cases hws : isPySpace c = true
    · cases b
      · obtain ⟨h1, h2, h3⟩ := ih true
        have hout : collapseWsAux false (c :: rest) = ' ' :: collapseWsAux true rest := by
          rw [collapseWsAux, if_pos hws]
        rw [hout]
        refine ⟨?_, ?_, fun hb => by cases hb⟩
        · rw [noTwoWs_cons, h3 rfl]
          simp [h1]
        · simp only [allWsSpace, List.all_cons, Bool.and_eq_true]
          exact ⟨by decide, h2⟩
      · obtain ⟨h1, h2, h3⟩ := ih true
        have hout : collapseWsAux true (c :: rest) = collapseWsAux true rest := by
          rw [collapseWsAux, if_pos hws]
        rw [hout]
        exact ⟨h1, h2, fun _ => h3 rfl⟩
    · obtain ⟨h1, h2, h3⟩ := ih false
      have hws' : isPySpace c = false := by
        revert hws
        cases isPySpace c <;> simp
      cases b
      · have hout : collapseWsAux false (c :: rest) = c :: collapseWsAux false rest := by
          rw [collapseWsAux, if_neg hws]
        rw [hout]
        refine ⟨?_, ?_, fun hb => by cases hb⟩
        · rw [noTwoWs_cons, hws']
          simp [h1]
        · simp only [allWsSpace, List.all_cons, Bool.and_eq_true, hws']
          exact ⟨by simp, h2⟩
      · have hout : collapseWsAux true (c :: rest) = c :: collapseWsAux false rest := by
          rw [collapseWsAux, if_neg hws]
        rw [hout]
        refine ⟨?_, ?_, fun _ => ?_⟩
        · rw [noTwoWs_cons, hws']
          simp [h1]
        · simp only [allWsSpace, List.all_cons, Bool.and_eq_true, hws']
          exact ⟨by simp, h2⟩
        · exact hws'

/-- Dropping a whitespace prefix leaves a string that does not start
with whitespace. -/
theorem firstIsWs_dropWhile : ∀ l : Str, firstIsWs (l.dropWhile isPySpace) = false := by
  intro l
  induction l with
  | nil => rfl
  | cons c rest ih =>
    rw [List.dropWhile_cons]
    by_cases h : isPySpace c = true
    · rw [if_pos h]
      exact ih
    · rw [if_neg h]
      show isPySpace c = false
      revert h
      cases isPySpace c <;> simp

/-- `noTwoWs` restricts to the right part of an append. -/
theorem noTwoWs_append_right : ∀ (pre v : Str), noTwoWs (pre ++ v) = true → noTwoWs v = true := by
  intro pre
  induction pre with
  | nil =>
    intro v h
    exact h
  | cons a pre' ih =>
    intro v h
    rw [List.cons_append, noTwoWs_cons] at h
    simp only [Bool.and_eq_true] at h
    exact ih v h.2

/-- `noTwoWs` expressed as an adjacency chain. -/
theorem noTwoWs_eq_chain : ∀ l : Str,
    noTwoWs l = true ↔ List.Chain' (fun a b => (!(isPySpace a && isPySpace b)) = true) l := by
  intro l
  induction l with
  | nil => simp [noTwoWs]
  | cons a rest ih =>
    cases rest with
    | nil => simp [noTwoWs]
    | cons b rest' =>
      rw [List.chain'_cons, ← ih, noTwoWs]
      simp [Bool.and_eq_true]

/-- `noTwoWs` is stable under reversal. -/
theorem noTwoWs_reverse (l : Str) : noTwoWs l.reverse = noTwoWs l := by
  have hiff : noTwoWs l.reverse = true ↔ noTwoWs l = true := by
    rw [noTwoWs_eq_chain, noTwoWs_eq_chain, List.chain'_reverse]
    constructor
    · intro h
      refine h.imp (fun a b hab => ?_)
      have hba : (!(isPySpace b && isPySpace a)) = true := hab
      rw [Bool.and_comm] at hba
      exact hba
    · intro h
      refine h.imp (fun a b hab => ?_)
      show (!(isPySpace b && isPySpace a)) = true
      rw [Bool.and_comm]
      exact hab
  rcases hb : noTwoWs l with _ | _ <;> rcases hb' : noTwoWs l.reverse with _ | _ <;> simp_all

/-- `allWsSpace` restricts to the right part of an append. -/
theorem allWsSpace_append_right (pre v : Str) (h : allWsSpace (pre ++ v) = true) :
    allWsSpace v = true := by
  simp only [allWsSpace, List.all_append, Bool.and_eq_true] at h
  exact h.2

/-- `allWsSpace` is stable under reversal. -/
theorem allWsSpace_reverse (l : Str) : allWsSpace l.reverse = allWsSpace l := by
  simp [allWsSpace, List.all_reverse]

/-- The head of an append with a nonempty left part is the head of the
left part. -/
theorem firstIsWs_append_left (l l' : Str) (h : l ≠ []) :
    firstIsWs (l ++ l') = firstIsWs l := by
  cases l with
  | nil => cases h rfl
  | cons c rest => rfl

/-- If a string ends with non-whitespace then so does itself after
dropping a whitespace prefix. -/
theorem dropWhile_reverse_firstIsWs (y : Str) (hy : firstIsWs y.reverse = false) :
    firstIsWs ((y.dropWhile isPySpace).reverse) = false := by
  have hsuf : y.dropWhile isPySpace <:+ y := List.dropWhile_suffix isPySpace
  obtain ⟨pre, hpre⟩ := hsuf
  by_cases hnil : y.dropWhile isPySpace = []
  · rw [hnil]
    rfl
  · have hrev : y.reverse = (y.dropWhile isPySpace).reverse ++ pre.reverse := by
      conv_lhs => rw [← hpre]
      rw [List.reverse_append]
    rw [hrev, firstIsWs_append_left _ _ (by simpa using hnil)] at hy
    exact hy

/-- Stripping leaves no leading or trailing whitespace. -/
theorem pyStrip_trimmed (s : Str) : trimmed (pyStrip s) = true := by
  rw [trimmed, pyStrip]
  have h1 : firstIsWs (((s.dropWhile isPySpace).reverse.dropWhile isPySpace).reverse) = false := by
    apply dropWhile_reverse_firstIsWs
    rw [List.reverse_reverse]
    exact firstIsWs_dropWhile s
  have h2 : firstIsWs (((s.dropWhile isPySpace).reverse.dropWhile isPySpace).reverse).reverse
      = false := by
    rw [List.reverse_reverse]
    exact firstIsWs_dropWhile _
  rw [h1, h2]
  rfl

/-- Stripping preserves the absence of adjacent whitespace pairs. -/
theorem pyStrip_noTwoWs (s : Str) (h : noTwoWs s = true) : noTwoWs (pyStrip s) = true := by
  rw [pyStrip, noTwoWs_reverse]
  have hs1 : noTwoWs (s.dropWhile isPySpace) = true := by
    obtain ⟨pre, hpre⟩ := (List.dropWhile_suffix isPySpace : s.dropWhile isPySpace <:+ s)
    rw [← hpre] at h
    exact noTwoWs_append_right pre _ h
  have hs2 : noTwoWs ((s.dropWhile isPySpace).reverse) = true := by
    rw [noTwoWs_reverse]
    exact hs1
  obtain ⟨pre, hpre⟩ := (List.dropWhile_suffix isPySpace :
    (s.dropWhile isPySpace).reverse.dropWhile isPySpace <:+ (s.dropWhile isPySpace).reverse)
  rw [← hpre] at hs2
  exact noTwoWs_append_right pre _ hs2

/-- Stripping preserves whitespace characters being plain spaces. -/
theorem pyStrip_allWsSpace (s : Str) (h : allWsSpace s = true) :
    allWsSpace (pyStrip s) = true := by
  rw [pyStrip, allWsSpace_reverse]
  have hs1 : allWsSpace (s.dropWhile isPySpace) = true := by
    obtain ⟨pre, hpre⟩ := (List.dropWhile_suffix isPySpace : s.dropWhile isPySpace <:+ s)
    rw [← hpre] at h
    exact allWsSpace_append_right pre _ h
  have hs2 : allWsSpace ((s.dropWhile isPySpace).reverse) = true := by
    rw [allWsSpace_reverse]
    exact hs1
  obtain ⟨pre, hpre⟩ := (List.dropWhile_suffix isPySpace :
    (s.dropWhile isPySpace).reverse.dropWhile isPySpace <:+ (s.dropWhile isPySpace).reverse)
  rw [← hpre] at hs2
  exact allWsSpace_append_right pre _ hs2

/-- The text path of the resume parser produces fully normalized
whitespace. -/
theorem parse_text_resume_normalized (content : Str) :
    normalizedWs (parse_text_resume content) = true := by
  rw [normalizedWs, parse_text_resume, collapseWs]
  obtain ⟨h1, h2, -⟩ := collapseWsAux_flags content false
  rw [pyStrip_noTwoWs _ h1, pyStrip_allWsSpace _ h2, pyStrip_trimmed]
  rfl

/-- Claim C6 as frozen is false on the code: the PDF path of the
parser only strips the concatenated page text - it never collapses
inner whitespace runs, so a page containing two adjacent spaces
survives unchanged. -/
theorem resume_parser_not_always_collapsed : ¬ C6Statement := by
  intro h
  have := h (lit "r.PDF") [lit "a  b"] []
  exact absurd this (by decide)

/-- Claim C6 amended: a filename ending in ".pdf" case-insensitively
selects page-by-page extraction joined by newlines and the result is
only trimmed of leading and trailing whitespace; any other file is
decoded as text and fully normalized - runs collapsed to single spaces
and trimmed. -/
theorem resume_parser_paths (filename : Str) (pdfPages : List Str) (content : Str) :
    ((lit ".pdf").isSuffixOf (filename.map Char.toLower) = true →
      parseUploadedResume filename pdfPages content = parse_pdf_resume pdfPages ∧
      trimmed (parse_pdf_resume pdfPages) = true) ∧
    ((lit ".pdf").isSuffixOf (filename.map Char.toLower) = false →
      parseUploadedResume filename pdfPages content = parse_text_resume content ∧
      normalizedWs (parse_text_resume content) = true) := by
  constructor
  · intro h
    rw [parseUploadedResume, if_pos h]
    refine ⟨rfl, ?_⟩
    rw [parse_pdf_resume]
    exact pyStrip_trimmed _
  · intro h
    rw [parseUploadedResume, if_neg (by simp [h])]
    exact ⟨rfl, parse_text_resume_normalized content⟩

/-- Witness for the amended C6 at the counterexample inputs: the PDF
path is taken and its result is trimmed (though not collapsed). -/
theorem resume_parser_paths_witness :
    parseUploadedResume (lit "r.PDF") [lit "a  b"] [] = parse_pdf_resume [lit "a  b"] ∧
    trimmed (parse_pdf_resume [lit "a  b"]) = true :=
  (resume_parser_paths (lit "r.PDF") [lit "a  b"] []).1 (by decide)

/-- Claim C9: for both id-based handlers an invalid-format identifier
is rejected with 400 before any collection operation is issued (empty
trace), and a well-formed identifier matching no stored record yields
404. -/
theorem id_handlers_validate (db : Mongo) (optimization_id : Str) :
    (db.objectIdValid optimization_id = false →
      get_optimization db optimization_id =
        (Except.error ⟨400, lit "Invalid optimization ID"⟩, []) ∧
      delete_optimization db optimization_id =
        (Except.error ⟨400, lit "Invalid optimization ID"⟩, [])) ∧
    (db.objectIdValid optimization_id = true →
      db.findOne optimization_id = none →
      (get_optimization db optimization_id).1 =
        Except.error ⟨404, lit "Optimization not found"⟩) ∧
    (db.objectIdValid optimization_id = true →
      db.deleteOneCount optimization_id = 0 →
      (delete_optimization db optimization_id).1 =
        Except.error ⟨404, lit "Optimization not found"⟩) := by
  refine ⟨fun h => ?_, fun h h2 => ?_, fun h h2 => ?_⟩
  · rw [get_optimization, delete_optimization]
    rw [h]
    exact ⟨rfl, rfl⟩
  · rw [get_optimization, h]
    simp only [if_true, h2]
  · rw [delete_optimization, h]
    simp only [if_true, if_pos h2]

/-- Witness for C9: a malformed two-character id is rejected with 400
and no collection operation, a well-formed absent id yields 404. -/
theorem id_handlers_validate_witness :
    (get_optimization mongoW (lit "zz") =
      (Except.error ⟨400, lit "Invalid optimization ID"⟩, []) ∧
     delete_optimization mongoW (lit "zz") =
      (Except.error ⟨400, lit "Invalid optimization ID"⟩, [])) ∧
    (get_optimization mongoW (lit "507f1f77bcf86cd799439011")).1 =
      Except.error ⟨404, lit "Optimization not found"⟩ :=
  ⟨(id_handlers_validate mongoW (lit "zz")).1 (by decide),
   (id_handlers_validate mongoW (lit "507f1f77bcf86cd799439011")).2.1 (by decide) rfl⟩

/-- Claim C10: for a missing or empty resume_text the handler still
performs the scrape - the 400 is raised afterwards, so the rejection is
not atomic with respect to external side effects; the trace consists of
exactly the scrape call. -/
theorem optimize_json_scrapes_before_validation (env : JsonEnv) (url : Str)
    (rt : Option Str) (h : rt = none ∨ rt = some []) :
    (optimize_resume_json env url rt).1 =
      HandlerOutcome.httpError ⟨400, lit "resume_text must be provided in JSON request"⟩ ∧
    (optimize_resume_json env url rt).2 = [ApiEvent.scrapeCall url] := by
  rcases h with h | h <;> subst h <;> exact ⟨rfl, rfl⟩

/-- Witness for C10 at a concrete environment and absent resume text. -/
theorem optimize_json_scrapes_before_validation_witness :
    (optimize_resume_json jsonEnvW (lit "https://example.com/job") none).1 =
      HandlerOutcome.httpError ⟨400, lit "resume_text must be provided in JSON request"⟩ ∧
    (optimize_resume_json jsonEnvW (lit "https://example.com/job") none).2 =
      [ApiEvent.scrapeCall (lit "https://example.com/job")] :=
  optimize_json_scrapes_before_validation jsonEnvW (lit "https://example.com/job") none
    (Or.inl rfl)

end ResumeAlign
